import Mathlib

/-!
Shallow embedding of the puzzle-piece matching engine
(src/services/matching_service.py, src/models/feature_extractor.py,
src/api/routes.py `analyze_piece`, src/services/puzzle_service.py).

Modelling conventions:
* Python floats are idealized as real numbers `ℝ`; descriptor vectors are
  `List ℝ`.  Integer pixel coordinates are `ℤ`.
* External numeric library calls are embedded by the mathematical function
  they compute: `cv2.compareHist(..., HISTCMP_CORREL)` is the Pearson
  correlation coefficient, `np.linalg.norm` is the Euclidean norm,
  `np.exp` is `Real.exp`, `scipy.spatial.distance.cosine` is
  `1 - ⟨u,v⟩/(‖u‖‖v‖)`.  Degenerate denominators yield `0` via `ℝ`
  division-by-zero, which agrees with OpenCV's degenerate output (the
  numerator is then forced to `0` as well).
* A library call that raises in Python (shape-mismatched arguments) is
  embedded by the surrounding `try/except` default of the source: the
  length-mismatch tests below reproduce the `except` branches of
  `_compare_color_histograms`, `_compare_shape_features` and
  `_compare_deep_features`.
* `dict.get` returning `None` for a missing sub-feature is `Option`.
* Python `list.sort(key=..., reverse=True)` (a stable sort, descending on
  the key) is embedded as `List.mergeSort` with the reflexive-total
  comparison `matchLE`, which is stable in exactly the same sense.
-/

/-- Shape feature record produced by `_extract_shape_features`: the 16-bin
edge-orientation histogram and the 7 log-scaled Hu moments.  The matcher
reads them with `dict.get`, so either may be absent (`none`). -/
structure ShapeFeatures where
  edge_hist : Option (List ℝ)
  hu_moments : Option (List ℝ)

/-- Descriptor of a piece or of one puzzle region, as produced by
`_extract_region_features`: color histogram, shape features, deep
(embedding) feature vector. -/
structure Features where
  color_hist : List ℝ
  shape : ShapeFeatures
  deep_features : List ℝ

/-- One grid region of a puzzle, as stored by `extract_puzzle_features`:
geometry plus the descriptor fields, all in one record. -/
structure Region where
  x : ℤ
  y : ℤ
  width : ℤ
  height : ℤ
  color_hist : List ℝ
  shape : ShapeFeatures
  deep_features : List ℝ

/-- The persisted feature set of one puzzle (`features.pkl`). -/
structure PuzzleFeatures where
  regions : List Region
  grid_size : ℤ × ℤ

/-- The puzzle metadata consulted by the matcher
(`puzzle_metadata['dimensions']`). -/
structure PuzzleMetadata where
  width : ℤ
  height : ℤ

/-- One match candidate as built by `_match_piece_to_puzzle`. -/
structure Match where
  confidence : ℝ
  x : ℤ
  y : ℤ
  width : ℤ
  height : ℤ
  rotation_needed : ℕ
  description : String

/-- The store consulted by `find_matches`: `load_puzzle_features` yields the
descriptor set or `None`, `get_puzzle` yields the metadata or `None`
(puzzle_service.load_puzzle_features / get_puzzle, both of which catch
their own errors and return `None`). -/
structure Store where
  load_puzzle_features : String → Option PuzzleFeatures
  get_puzzle : String → Option PuzzleMetadata

/-- Sum of a real list (numpy reductions). -/
def rsum (l : List ℝ) : ℝ := l.sum

/-- Dot product of two vectors (numpy). -/
def dotp (u v : List ℝ) : ℝ := (List.zipWith (fun a b => a * b) u v).sum

/-- Arithmetic mean of a vector, `0` for the empty vector (ℝ division by
zero), as used inside the correlation formula. -/
noncomputable def meanv (l : List ℝ) : ℝ := rsum l / l.length

/-- Euclidean norm (np.linalg.norm). -/
noncomputable def norm2 (l : List ℝ) : ℝ := Real.sqrt (rsum (l.map (fun a => a ^ 2)))

/-- Pearson correlation coefficient, the mathematical content of
`cv2.compareHist(h1, h2, cv2.HISTCMP_CORREL)`. -/
noncomputable def pearson (u v : List ℝ) : ℝ :=
  let du := u.map (fun a => a - meanv u)
  let dv := v.map (fun a => a - meanv v)
  dotp du dv / Real.sqrt (dotp du du * dotp dv dv)

/-- Cosine distance of scipy: `1 - ⟨u,v⟩ / (‖u‖‖v‖)`. -/
noncomputable def cosineDistance (u v : List ℝ) : ℝ :=
  1 - dotp u v / (norm2 u * norm2 v)

/-- The clamp `max(0.0, min(1.0, s))` used by all three comparison
functions of MatchingService. -/
noncomputable def clamp01 (x : ℝ) : ℝ := max 0 (min 1 x)

/-- MatchingService._compare_color_histograms: correlation mapped by
`(c + 1) / 2` and clamped to `[0, 1]`.  Length-mismatched histograms make
`cv2.compareHist` raise, and the `except` branch returns `0.0`. -/
noncomputable def compare_color_histograms (hist1 hist2 : List ℝ) : ℝ :=
  if hist1.length = hist2.length then clamp01 ((pearson hist1 hist2 + 1) / 2) else 0

/-- True when both sub-vectors are present but of different lengths: the
inputs on which the underlying numpy/cv2 call raises. -/
def optLenMismatch : Option (List ℝ) → Option (List ℝ) → Bool
  | some a, some b => a.length ≠ b.length
  | _, _ => false

/-- MatchingService._compare_shape_features.  Present edge histograms are
compared by correlation mapped to `(c+1)/2`; present Hu vectors by
`exp(-‖hu1 - hu2‖)`; an absent (`None`) sub-vector contributes the neutral
`0.5`.  The average is clamped to `[0,1]`.  A length mismatch in a present
pair makes the library call raise and the `except` branch returns `0.5`. -/
noncomputable def compare_shape_features (shape1 shape2 : ShapeFeatures) : ℝ :=
  if optLenMismatch shape1.edge_hist shape2.edge_hist then 1 / 2
  else if optLenMismatch shape1.hu_moments shape2.hu_moments then 1 / 2
  else
    let edge_similarity :=
      match shape1.edge_hist, shape2.edge_hist with
      | some e1, some e2 => (pearson e1 e2 + 1) / 2
      | _, _ => (1 : ℝ) / 2
    let hu_similarity :=
      match shape1.hu_moments, shape2.hu_moments with
      | some h1, some h2 => Real.exp (-(norm2 (List.zipWith (fun a b => a - b) h1 h2)))
      | _, _ => (1 : ℝ) / 2
    clamp01 ((edge_similarity + hu_similarity) / 2)

/-- MatchingService._compare_deep_features: empty vectors give `0.0`; a
length mismatch makes `scipy.cosine` raise and the `except` branch returns
`0.0`; otherwise both vectors are renormalized by `‖f‖ + 1e-8` and the
result is `clamp01(1 - cosine(f1, f2))`. -/
noncomputable def compare_deep_features (features1 features2 : List ℝ) : ℝ :=
  if features1.length = 0 ∨ features2.length = 0 then 0
  else if features1.length ≠ features2.length then 0
  else
    let f1 := features1.map (fun a => a / (norm2 features1 + 1e-8))
    let f2 := features2.map (fun a => a / (norm2 features2 + 1e-8))
    clamp01 (1 - cosineDistance f1 f2)

/-- The fused confidence of `_match_piece_to_puzzle`:
`0.25*color*100 + 0.25*shape*100 + 0.50*feature*100`. -/
def confidence_score (color_score shape_score feature_score : ℝ) : ℝ :=
  0.25 * color_score * 100 + 0.25 * shape_score * 100 + 0.50 * feature_score * 100

/-- Python `round(x, 1)` idealized over `ℝ`: round `10·x` to the nearest
integer and divide by `10` (the banker-versus-half-up tie difference is
immaterial to every claim and every input used here). -/
noncomputable def round1 (x : ℝ) : ℝ := ((round (x * 10) : ℤ) : ℝ) / 10

/-- MatchingService._generate_location_description.  The `0.33` / `0.67`
float thresholds are idealized as exact rationals, so the classification is
decidable/computable. -/
def generate_location_description (r : Region) (md : PuzzleMetadata) (rotation_deg : ℕ) : String :=
  let h_pos : String :=
    if (r.x : ℚ) < (md.width : ℚ) * (33 / 100) then "left"
    else if (r.x : ℚ) < (md.width : ℚ) * (67 / 100) then "center"
    else "right"
  let v_pos : String :=
    if (r.y : ℚ) < (md.height : ℚ) * (33 / 100) then "upper"
    else if (r.y : ℚ) < (md.height : ℚ) * (67 / 100) then "middle"
    else "lower"
  let position : String :=
    if v_pos = "middle" ∧ h_pos = "center" then "Center area"
    else if v_pos = "middle" then h_pos.capitalize ++ " side"
    else if h_pos = "center" then v_pos.capitalize ++ " area"
    else v_pos.capitalize ++ "-" ++ h_pos ++ " quadrant"
  let rotation_text : String :=
    if rotation_deg = 0 then ""
    else if rotation_deg = 90 then ", rotated 90° clockwise"
    else if rotation_deg = 180 then ", rotated 180°"
    else if rotation_deg = 270 then ", rotated 90° counter-clockwise"
    else ", rotated " ++ toString rotation_deg ++ "°"
  position ++ rotation_text

open Classical in
/-- The per-region body of the loop in `_match_piece_to_puzzle`: the color
prefilter (`continue` when `color_score < 0.3`), the shape and deep stages,
the fused confidence, and the `confidence >= 40` acceptance gate.  Returns
the appended match, or `none` when the region is skipped. -/
noncomputable def processRegion (piece : Features) (md : PuzzleMetadata) (rotation_deg : ℕ)
    (r : Region) : Option Match :=
  if compare_color_histograms piece.color_hist r.color_hist < 0.3 then none
  else
    if 40 ≤ confidence_score (compare_color_histograms piece.color_hist r.color_hist)
        (compare_shape_features piece.shape r.shape)
        (compare_deep_features piece.deep_features r.deep_features) then
      some
        { confidence := round1 (confidence_score
            (compare_color_histograms piece.color_hist r.color_hist)
            (compare_shape_features piece.shape r.shape)
            (compare_deep_features piece.deep_features r.deep_features))
          x := r.x
          y := r.y
          width := r.width
          height := r.height
          rotation_needed := rotation_deg
          description := generate_location_description r md rotation_deg }
    else none

/-- MatchingService._match_piece_to_puzzle: run the cascade over every
region in order, collecting the accepted candidates. -/
noncomputable def match_piece_to_puzzle (piece : Features) (pf : PuzzleFeatures)
    (md : PuzzleMetadata) (rotation_deg : ℕ) : List Match :=
  pf.regions.filterMap (processRegion piece md rotation_deg)

/-- MatchingService._extract_piece_features_all_orientations.  The image
decoding/rotation/extraction is external; its outcome is modelled as
`Option (ℕ → Features)`: `none` is the `except` branch (the function then
returns the empty list), `some f` the success branch, which produces one
descriptor per rotation in the fixed order 0, 90, 180, 270. -/
def extract_piece_features_all_orientations (piece : Option (ℕ → Features)) :
    List (ℕ × Features) :=
  match piece with
  | none => []
  | some f => [0, 90, 180, 270].map (fun r => (r, f r))

open Classical in
/-- The comparison under Python's
`all_matches.sort(key=lambda x: x['confidence'], reverse=True)`:
`a` may stay before `b` exactly when `b.confidence ≤ a.confidence`. -/
noncomputable def matchLE (a b : Match) : Bool := decide (b.confidence ≤ a.confidence)

/-- MatchingService.find_matches: load the stored features and metadata
(either missing yields `[]`), extract the piece descriptors for the 4
orientations, pool the per-orientation candidates, stable-sort by
confidence descending, and return the first `top_k`. -/
noncomputable def find_matches (store : Store) (piece : Option (ℕ → Features))
    (puzzle_id : String) (top_k : ℕ) : List Match :=
  match store.load_puzzle_features puzzle_id with
  | none => []
  | some puzzle_features =>
    match store.get_puzzle puzzle_id with
    | none => []
    | some puzzle_metadata =>
      let piece_features_list := extract_piece_features_all_orientations piece
      let all_matches :=
        (piece_features_list.map
          (fun p => match_piece_to_puzzle p.2 puzzle_features puzzle_metadata p.1)).flatten
      (all_matches.mergeSort matchLE).take top_k

/-- The JSON body returned by the `analyze_piece` route on the success
path. -/
structure MatchResponse where
  success : Bool
  best_match : Option Match
  alternatives : List Match
  warning : Option String

open Classical in
/-- The response body assembled by `analyze_piece` (routes.py) from the
match list: `best_match`, the `>= 80`-gated alternatives, and the warning
policy.  `success` is always `true` on this path; the float
`processing_time` field is wall-clock time and is not modelled. -/
noncomputable def analyze_piece_response (matchList : List Match) : MatchResponse :=
  match matchList with
  | [] =>
    { success := true
      best_match := none
      alternatives := []
      warning := some "No confident match found. Please try a different piece or retake the photo." }
  | best :: rest =>
    { success := true
      best_match := some best
      alternatives :=
        if 80 ≤ best.confidence then rest.filter (fun m => decide (80 ≤ m.confidence)) else []
      warning :=
        if best.confidence < 80 then some "Low confidence match. This may not be accurate."
        else none }

/-- The outcome of the `analyze_piece` route: an error response with an
HTTP status, or a success body. -/
inductive ApiResult where
  | err (message : String) (status : ℕ)
  | ok (body : MatchResponse) (status : ℕ)

/-- The matching part of the `analyze_piece` route (routes.py): a missing
puzzle is answered with an explicit 404 before matching; otherwise
`find_matches` is called with the default `top_k = 5` and its list is
shaped into the response.  Upload validation and the quality gate happen
before this fragment and are out of scope. -/
noncomputable def analyze_piece (store : Store) (piece : Option (ℕ → Features))
    (puzzle_id : String) : ApiResult :=
  match store.get_puzzle puzzle_id with
  | none => ApiResult.err "Puzzle not found" 404
  | some _ => ApiResult.ok (analyze_piece_response (find_matches store piece puzzle_id 5)) 200

/-- The region window size fixed inside `extract_puzzle_features`. -/
def window_size : ℤ := 100

/-- The region overlap fixed inside `extract_puzzle_features`. -/
def window_overlap : ℤ := 50

/-- The sliding-window stride `step = window_size - overlap`. -/
def grid_step : ℤ := window_size - window_overlap

/-- Python `range(0, stop, step)` for `step > 0`: the ascending multiples
of `step` below `stop`; empty when `stop <= 0`. -/
def python_range (stop step : ℤ) : List ℤ :=
  if stop ≤ 0 then []
  else (List.range ((stop + step - 1) / step).toNat).map (fun (i : ℕ) => ((i : ℤ)) * step)

/-- The nested sliding-window loops of `extract_puzzle_features`: `y` over
`range(0, height - window_size + 1, step)` outside, `x` over
`range(0, width - window_size + 1, step)` inside, collecting `(x, y)` in
that visit order. -/
def grid_positions (width height : ℤ) : List (ℤ × ℤ) :=
  (python_range (height - window_size + 1) grid_step).flatMap (fun y =>
    (python_range (width - window_size + 1) grid_step).map (fun x => (x, y)))

/-- The `rows` count computed by `extract_puzzle_features`
(`(height - window_size) // step + 1`, Python floor division). -/
def grid_rows (height : ℤ) : ℤ := (height - window_size).fdiv grid_step + 1

/-- The `cols` count computed by `extract_puzzle_features`
(`(width - window_size) // step + 1`, Python floor division). -/
def grid_cols (width : ℤ) : ℤ := (width - window_size).fdiv grid_step + 1

/-- FeatureExtractor.extract_puzzle_features: one region record per window
position, in loop order, each of size `window_size × window_size`, with the
descriptor produced by `_extract_region_features` on the cropped window
(modelled by the oracle `rf x y`, since the image content is external), and
`grid_size = (rows, cols)`. -/
def extract_puzzle_features (rf : ℤ → ℤ → Features) (width height : ℤ) : PuzzleFeatures :=
  { regions :=
      (grid_positions width height).map (fun p =>
        { x := p.1
          y := p.2
          width := window_size
          height := window_size
          color_hist := (rf p.1 p.2).color_hist
          shape := (rf p.1 p.2).shape
          deep_features := (rf p.1 p.2).deep_features })
    grid_size := (grid_rows height, grid_cols width) }

lemma matchLE_trans : ∀ a b c : Match, matchLE a b = true → matchLE b c = true →
    matchLE a c = true := by
  intro a b c hab hbc
  simp only [matchLE, decide_eq_true_eq] at *
  exact le_trans hbc hab

lemma matchLE_total : ∀ a b : Match, (matchLE a b || matchLE b a) = true := by
  intro a b
  simp only [matchLE, Bool.or_eq_true, decide_eq_true_eq]
  exact le_total b.confidence a.confidence

/-- Stability of `mergeSort`, in filter form: filtering any class of
mutually `le`-related elements commutes with sorting, i.e. the sorted list
keeps such elements in their original relative order. -/
lemma filter_mergeSort_stable {α : Type} (le : α → α → Bool)
    (htrans : ∀ a b c : α, le a b = true → le b c = true → le a c = true)
    (htotal : ∀ a b : α, (le a b || le b a) = true)
    (p : α → Bool) (hp : ∀ a b : α, p a = true → p b = true → le a b = true)
    (l : List α) : (l.mergeSort le).filter p = l.filter p := by
  have hsub : (l.filter p).Sublist l := List.filter_sublist l
  have hpw : List.Pairwise (fun a b => le a b = true) (l.filter p) := by
    refine List.pairwise_of_forall_mem_list ?_
    intro a ha b hb
    exact hp a b (List.of_mem_filter ha) (List.of_mem_filter hb)
  have h1 : (l.filter p).Sublist (l.mergeSort le) :=
    List.sublist_mergeSort htrans htotal hpw hsub
  have h2 : (l.filter p).Sublist ((l.mergeSort le).filter p) := by
    have h3 := h1.filter p
    rwa [List.filter_filter, (by
      funext a
      cases hpa : p a <;> simp [hpa] : (fun a => p a && p a) = p)] at h3
  have hlen : ((l.mergeSort le).filter p).length = (l.filter p).length :=
    ((List.mergeSort_perm l le).filter p).length_eq
  exact (h2.eq_of_length hlen.symm).symm

lemma clamp01_nonneg (x : ℝ) : 0 ≤ clamp01 x := le_max_left 0 _

lemma clamp01_le_one (x : ℝ) : clamp01 x ≤ 1 := by
  simp only [clamp01, max_le_iff]
  exact ⟨zero_le_one, min_le_left 1 x⟩

lemma compare_color_histograms_mem_Icc (h1 h2 : List ℝ) :
    0 ≤ compare_color_histograms h1 h2 ∧ compare_color_histograms h1 h2 ≤ 1 := by
  unfold compare_color_histograms
  split
  · exact ⟨clamp01_nonneg _, clamp01_le_one _⟩
  · exact ⟨le_refl 0, zero_le_one⟩

lemma compare_shape_features_mem_Icc (s1 s2 : ShapeFeatures) :
    0 ≤ compare_shape_features s1 s2 ∧ compare_shape_features s1 s2 ≤ 1 := by
  unfold compare_shape_features
  split
  · norm_num
  · split
    · norm_num
    · exact ⟨clamp01_nonneg _, clamp01_le_one _⟩

lemma compare_deep_features_mem_Icc (f1 f2 : List ℝ) :
    0 ≤ compare_deep_features f1 f2 ∧ compare_deep_features f1 f2 ≤ 1 := by
  unfold compare_deep_features
  split
  · exact ⟨le_refl 0, zero_le_one⟩
  · split
    · exact ⟨le_refl 0, zero_le_one⟩
    · exact ⟨clamp01_nonneg _, clamp01_le_one _⟩

lemma round1_ge_of_ge {x : ℝ} (h : (40 : ℝ) ≤ x) : (40 : ℝ) ≤ round1 x := by
  have h400 : ((400 : ℤ) : ℝ) ≤ x * 10 + 1 / 2 := by push_cast; nlinarith
  have hfloor : (400 : ℤ) ≤ ⌊x * 10 + 1 / 2⌋ := Int.le_floor.mpr h400
  have hround : (400 : ℤ) ≤ round (x * 10) := by rwa [round_eq]
  have hcast : ((400 : ℤ) : ℝ) ≤ ((round (x * 10) : ℤ) : ℝ) := by exact_mod_cast hround
  unfold round1
  push_cast at hcast ⊢
  linarith

lemma sqrt_four : Real.sqrt 4 = 2 := by
  rw [show (4 : ℝ) = 2 * 2 by norm_num, Real.sqrt_mul_self (by norm_num)]

lemma pearson_unit_same : pearson [(1 : ℝ), 0] [1, 0] = 1 := by
  simp only [pearson, meanv, rsum, dotp]
  norm_num [sqrt_four]

lemma pearson_unit_opp : pearson [(1 : ℝ), 0] [0, 1] = -1 := by
  simp only [pearson, meanv, rsum, dotp]
  norm_num [sqrt_four]

lemma cosine_axis (a : ℝ) (h : a ≠ 0) : cosineDistance [a, 0] [a, 0] = 0 := by
  simp only [cosineDistance, norm2, rsum, dotp]
  norm_num
  rw [Real.mul_self_sqrt (by positivity)]
  field_simp
  ring

lemma norm2_unit : norm2 [(1 : ℝ), 0] = 1 := by
  simp only [norm2, rsum]
  norm_num

lemma norm2_zero7 : norm2 [(0 : ℝ), 0, 0, 0, 0, 0, 0] = 0 := by
  simp only [norm2, rsum]
  norm_num

lemma compare_color_unit_same : compare_color_histograms [(1 : ℝ), 0] [1, 0] = 1 := by
  simp only [compare_color_histograms, pearson_unit_same]
  norm_num [clamp01]

lemma compare_color_unit_opp : compare_color_histograms [(1 : ℝ), 0] [0, 1] = 0 := by
  simp only [compare_color_histograms, pearson_unit_opp]
  norm_num [clamp01]

lemma compare_deep_unit : compare_deep_features [(1 : ℝ), 0] [1, 0] = 1 := by
  simp only [compare_deep_features, norm2_unit]
  norm_num
  rw [cosine_axis _ (by norm_num)]
  simp [clamp01]

/-- Shape feature fixture used by the concrete witnesses. -/
def wShape : ShapeFeatures := ⟨some [1, 0], some [0, 0, 0, 0, 0, 0, 0]⟩

lemma compare_shape_w : compare_shape_features wShape wShape = 1 := by
  simp only [compare_shape_features, wShape, optLenMismatch]
  norm_num [pearson_unit_same, norm2_zero7, Real.exp_zero, clamp01]

/-- Piece descriptor fixture used by the concrete witnesses. -/
def wFeat : Features := ⟨[1, 0], wShape, [1, 0]⟩

/-- Region fixture (at the upper-left corner) used by the witnesses. -/
def wRegion : Region := ⟨0, 0, 100, 100, [1, 0], wShape, [1, 0]⟩

/-- Metadata fixture (a 300 × 200 puzzle) used by the witnesses. -/
def wMeta : PuzzleMetadata := ⟨300, 200⟩

/-- Feature-set fixture with a single region. -/
def wPF : PuzzleFeatures := ⟨[wRegion], (3, 5)⟩

/-- Store fixture with the single-region puzzle installed. -/
def wStore : Store := ⟨fun _ => some wPF, fun _ => some wMeta⟩

/-- The candidate the fixtures produce at rotation `rot`. -/
noncomputable def wMatch (rot : ℕ) : Match :=
  ⟨100, 0, 0, 100, 100, rot, generate_location_description wRegion wMeta rot⟩

lemma confidence_score_w : confidence_score 1 1 1 = 100 := by
  unfold confidence_score
  norm_num

lemma round1_100 : round1 100 = 100 := by
  unfold round1
  rw [show (100 : ℝ) * 10 = ((1000 : ℤ) : ℝ) by norm_num, round_intCast]
  norm_num

lemma processRegion_w (rot : ℕ) : processRegion wFeat wMeta rot wRegion = some (wMatch rot) := by
  have hc : compare_color_histograms wFeat.color_hist wRegion.color_hist = 1 :=
    compare_color_unit_same
  have hs : compare_shape_features wFeat.shape wRegion.shape = 1 := compare_shape_w
  have hd : compare_deep_features wFeat.deep_features wRegion.deep_features = 1 :=
    compare_deep_unit
  unfold processRegion
  rw [hc, hs, hd, confidence_score_w, if_neg (by norm_num), if_pos (by norm_num), round1_100]
  rfl

lemma find_matches_w (pid : String) :
    find_matches wStore (some (fun _ => wFeat)) pid 5 =
      [wMatch 0, wMatch 90, wMatch 180, wMatch 270] := by
  have hLE : ∀ i j : ℕ, matchLE (wMatch i) (wMatch j) = true := by
    intro i j
    simp [matchLE, wMatch]
  have hsorted : List.Pairwise (fun a b => matchLE a b = true)
      [wMatch 0, wMatch 90, wMatch 180, wMatch 270] := by
    refine List.pairwise_of_forall_mem_list ?_
    intro a ha b hb
    simp only [List.mem_cons, List.not_mem_nil, or_false] at ha hb
    rcases ha with ha | ha | ha | ha <;> rcases hb with hb | hb | hb | hb <;>
      subst ha <;> subst hb <;> exact hLE _ _
  simp only [find_matches, wStore, extract_piece_features_all_orientations, List.map_cons,
    List.map_nil, match_piece_to_puzzle, wPF, List.filterMap_cons, processRegion_w,
    List.filterMap_nil, List.flatten, List.singleton_append, List.cons_append,
    List.nil_append, List.append_nil]
  rw [List.mergeSort_of_sorted hsorted]
  simp

lemma processRegion_eq_some {piece : Features} {md : PuzzleMetadata} {rot : ℕ} {r : Region}
    {m : Match} (h : processRegion piece md rot r = some m) :
    40 ≤ confidence_score (compare_color_histograms piece.color_hist r.color_hist)
        (compare_shape_features piece.shape r.shape)
        (compare_deep_features piece.deep_features r.deep_features) ∧
      m.confidence = round1 (confidence_score
        (compare_color_histograms piece.color_hist r.color_hist)
        (compare_shape_features piece.shape r.shape)
        (compare_deep_features piece.deep_features r.deep_features)) := by
  unfold processRegion at h
  split_ifs at h with h1 h2
  refine ⟨h2, ?_⟩
  have hm := Option.some.inj h
  rw [← hm]

/-- C1: every candidate returned by `find_matches` — hence the best match
and every alternative, which the route draws from this list — has
confidence at least 40, and a (rotation, region) pair whose fused
confidence is below 40 yields no candidate from `processRegion` at all. -/
theorem C1_acceptance_gate :
    (∀ (store : Store) (piece : Option (ℕ → Features)) (pid : String) (k : ℕ) (m : Match),
      m ∈ find_matches store piece pid k → 40 ≤ m.confidence) ∧
    (∀ (piece : Features) (md : PuzzleMetadata) (rot : ℕ) (r : Region),
      confidence_score (compare_color_histograms piece.color_hist r.color_hist)
          (compare_shape_features piece.shape r.shape)
          (compare_deep_features piece.deep_features r.deep_features) < 40 →
      processRegion piece md rot r = none) := by
  constructor
  · intro store piece pid k m hm
    rcases hpf : store.load_puzzle_features pid with _ | pf
    · simp only [find_matches, hpf, List.not_mem_nil] at hm
    · rcases hmd : store.get_puzzle pid with _ | md
      · simp only [find_matches, hpf, hmd, List.not_mem_nil] at hm
      · simp only [find_matches, hpf, hmd] at hm
        have hm2 := List.mem_of_mem_take hm
        rw [List.mem_mergeSort, List.mem_flatten] at hm2
        obtain ⟨l, hl, hml⟩ := hm2
        rw [List.mem_map] at hl
        obtain ⟨p, hp, rfl⟩ := hl
        unfold match_piece_to_puzzle at hml
        rw [List.mem_filterMap] at hml
        obtain ⟨r, hr, hpr⟩ := hml
        obtain ⟨hge, hconf⟩ := processRegion_eq_some hpr
        rw [hconf]
        exact round1_ge_of_ge hge
  · intro piece md rot r hlt
    unfold processRegion
    split_ifs with h1 h2
    · rfl
    · linarith
    · rfl

/-- Witness for C1: the concrete single-region store produces the
candidate `wMatch 0`, a member of the returned list, and the theorem
yields its confidence bound. -/
theorem C1_witness :
    wMatch 0 ∈ find_matches wStore (some (fun _ => wFeat)) "p" 5 ∧
      (40 : ℝ) ≤ (wMatch 0).confidence := by
  have hmem : wMatch 0 ∈ find_matches wStore (some (fun _ => wFeat)) "p" 5 := by
    rw [find_matches_w]
    simp
  exact ⟨hmem, C1_acceptance_gate.1 wStore (some (fun _ => wFeat)) "p" 5 (wMatch 0) hmem⟩

/-- C2: a color-stage similarity below 0.30 makes the cascade skip the
region/orientation pair immediately: no candidate is produced, and the
outcome does not depend on the region's shape or embedding features (the
later stages are never consulted). -/
theorem C2_prefilter (piece : Features) (md : PuzzleMetadata) (rot : ℕ) (r : Region)
    (h : compare_color_histograms piece.color_hist r.color_hist < 0.3) :
    processRegion piece md rot r = none ∧
      (∀ (s2 : ShapeFeatures) (d2 : List ℝ),
        processRegion piece md rot { r with shape := s2, deep_features := d2 } = none) := by
  constructor
  · unfold processRegion
    rw [if_pos h]
  · intro s2 d2
    unfold processRegion
    rw [if_pos h]

/-- Region fixture whose color histogram is anti-correlated with the
piece fixture: the color stage scores exactly 0 against `wFeat`. -/
def w2Region : Region := ⟨0, 0, 100, 100, [0, 1], wShape, [1, 0]⟩

/-- Witness for C2: against the region fixture whose color histogram is
anti-correlated with the piece, the color stage scores 0 < 0.30 and the
pair is rejected. -/
theorem C2_witness :
    compare_color_histograms wFeat.color_hist w2Region.color_hist < 0.3 ∧
      processRegion wFeat wMeta 0 w2Region = none := by
  have h : compare_color_histograms wFeat.color_hist w2Region.color_hist < 0.3 := by
    rw [show compare_color_histograms wFeat.color_hist w2Region.color_hist = 0 from
      compare_color_unit_opp]
    norm_num
  exact ⟨h, (C2_prefilter wFeat wMeta 0 w2Region h).1⟩

/-- C3: for stage similarities in `[0,1]` the fused confidence equals
`100·(0.25·color + 0.25·shape + 0.50·embedding)` and lies in `[0,100]`,
and each of the three comparison functions clamps its output into
`[0,1]` on every input. -/
theorem C3_fusion (c s e : ℝ) (hc0 : 0 ≤ c) (hc1 : c ≤ 1) (hs0 : 0 ≤ s) (hs1 : s ≤ 1)
    (he0 : 0 ≤ e) (he1 : e ≤ 1) :
    confidence_score c s e = 100 * (0.25 * c + 0.25 * s + 0.50 * e) ∧
      0 ≤ confidence_score c s e ∧ confidence_score c s e ≤ 100 ∧
      (∀ h1 h2 : List ℝ,
        0 ≤ compare_color_histograms h1 h2 ∧ compare_color_histograms h1 h2 ≤ 1) ∧
      (∀ s1 s2 : ShapeFeatures,
        0 ≤ compare_shape_features s1 s2 ∧ compare_shape_features s1 s2 ≤ 1) ∧
      (∀ f1 f2 : List ℝ,
        0 ≤ compare_deep_features f1 f2 ∧ compare_deep_features f1 f2 ≤ 1) := by
  refine ⟨by unfold confidence_score; ring, ?_, ?_,
    compare_color_histograms_mem_Icc, compare_shape_features_mem_Icc,
    compare_deep_features_mem_Icc⟩
  · unfold confidence_score
    nlinarith
  · unfold confidence_score
    nlinarith

/-- Witness for C3: the fusion identity and the `[0,100]` bounds at the
concrete stage values `(1/2, 1/2, 1/2)`. -/
theorem C3_witness :
    confidence_score (1 / 2) (1 / 2) (1 / 2) =
        100 * (0.25 * (1 / 2) + 0.25 * (1 / 2) + 0.50 * (1 / 2)) ∧
      0 ≤ confidence_score (1 / 2) (1 / 2) (1 / 2) ∧
      confidence_score (1 / 2) (1 / 2) (1 / 2) ≤ 100 := by
  obtain ⟨h1, h2, h3, -⟩ := C3_fusion (1 / 2) (1 / 2) (1 / 2) (by norm_num) (by norm_num)
    (by norm_num) (by norm_num) (by norm_num) (by norm_num)
  exact ⟨h1, h2, h3⟩

lemma pairwise_conf_of_matchLE {l : List Match}
    (h : List.Pairwise (fun a b => matchLE a b = true) l) :
    List.Pairwise (fun a b : Match => b.confidence ≤ a.confidence) l := by
  refine h.imp ?_
  intro a b hab
  simpa [matchLE] using hab

open Classical in
/-- C4: `find_matches` pools the candidates of the four rotations in the
fixed order 0, 90, 180, 270 (each rotation contributing its candidates in
region discovery order), stable-sorts the pool by confidence descending,
and returns exactly the first `top_k` entries (the route passes the
default 5).  The list returned is sorted by confidence descending, and
sorting preserves the pool's relative order inside every
equal-confidence class — i.e. ties are broken by rotation ascending and
then by region discovery order. -/
theorem C4_ranking (pf : PuzzleFeatures) (md : PuzzleMetadata) (f : ℕ → Features)
    (pid : String) (k : ℕ) :
    find_matches ⟨fun _ => some pf, fun _ => some md⟩ (some f) pid k =
        ((([0, 90, 180, 270].map
            (fun rot => match_piece_to_puzzle (f rot) pf md rot)).flatten).mergeSort
              matchLE).take k ∧
      List.Pairwise (fun a b : Match => b.confidence ≤ a.confidence)
        (find_matches ⟨fun _ => some pf, fun _ => some md⟩ (some f) pid k) ∧
      (∀ q : ℝ,
        ((([0, 90, 180, 270].map
            (fun rot => match_piece_to_puzzle (f rot) pf md rot)).flatten).mergeSort
              matchLE).filter (fun m => decide (m.confidence = q)) =
          (([0, 90, 180, 270].map
            (fun rot => match_piece_to_puzzle (f rot) pf md rot)).flatten).filter
              (fun m => decide (m.confidence = q))) := by
  have heq : find_matches ⟨fun _ => some pf, fun _ => some md⟩ (some f) pid k =
      ((([0, 90, 180, 270].map
          (fun rot => match_piece_to_puzzle (f rot) pf md rot)).flatten).mergeSort
            matchLE).take k := by
    simp only [find_matches, extract_piece_features_all_orientations, List.map_cons,
      List.map_nil]
  refine ⟨heq, ?_, ?_⟩
  · rw [heq]
    refine pairwise_conf_of_matchLE ?_
    exact List.Pairwise.sublist (List.take_sublist _ _)
      (@List.sorted_mergeSort _ matchLE matchLE_trans matchLE_total _)
  · intro q
    refine filter_mergeSort_stable matchLE matchLE_trans matchLE_total _ ?_ _
    intro a b ha hb
    simp only [decide_eq_true_eq] at ha hb
    simp only [matchLE, decide_eq_true_eq, ha, hb, le_refl]

open Classical in
/-- C5: when a best match exists with confidence at least 80, the
alternatives are exactly the remaining ranked entries with confidence at
least 80 (order preserved by the filter); when the best match is absent or
scores below 80, the alternatives list is empty no matter what the other
candidates score. -/
theorem C5_alternatives :
    (∀ (b : Match) (rest : List Match), 80 ≤ b.confidence →
      (analyze_piece_response (b :: rest)).alternatives =
        rest.filter (fun m => decide (80 ≤ m.confidence))) ∧
    (∀ (b : Match) (rest : List Match), b.confidence < 80 →
      (analyze_piece_response (b :: rest)).alternatives = []) ∧
    (analyze_piece_response []).alternatives = [] := by
  refine ⟨?_, ?_, rfl⟩
  · intro b rest h
    simp only [analyze_piece_response]
    rw [if_pos h]
  · intro b rest h
    simp only [analyze_piece_response]
    rw [if_neg (not_le.mpr h)]

/-- Match fixture with confidence 85 (geometry/description immaterial). -/
def wM85 : Match := ⟨85, 0, 0, 100, 100, 0, ""⟩

/-- Match fixture with confidence 82. -/
def wM82 : Match := ⟨82, 0, 50, 100, 100, 0, ""⟩

/-- Match fixture with confidence 45. -/
def wM45 : Match := ⟨45, 50, 0, 100, 100, 90, ""⟩

/-- Witness for C5: with ranked candidates scoring 85, 82, 45 the
alternatives are exactly the 82 entry; with a best of 45 they are empty. -/
theorem C5_witness :
    (80 : ℝ) ≤ wM85.confidence ∧
      (analyze_piece_response [wM85, wM82, wM45]).alternatives = [wM82] ∧
      wM45.confidence < 80 ∧
      (analyze_piece_response [wM45, wM82]).alternatives = [] := by
  have h85 : (80 : ℝ) ≤ wM85.confidence := by norm_num [wM85]
  have h45 : wM45.confidence < (80 : ℝ) := by norm_num [wM45]
  refine ⟨h85, ?_, h45, C5_alternatives.2.1 wM45 [wM82] h45⟩
  rw [C5_alternatives.1 wM85 [wM82, wM45] h85]
  rw [List.filter_cons_of_pos (by simp only [decide_eq_true_eq]; norm_num [wM82]),
    List.filter_cons_of_neg (by simp only [decide_eq_true_eq, not_le]; norm_num [wM45]),
    List.filter_nil]

/-- C6: the warning is the "no confident match" message exactly when the
candidate list is empty (still a normal success with a null best match),
the "low confidence" message exactly when a best match exists with
confidence below 80, and absent exactly when a best match exists with
confidence at least 80; the best match is always the head of the ranked
list. -/
theorem C6_warning_policy (ms : List Match) :
    (analyze_piece_response ms).success = true ∧
      (analyze_piece_response ms).best_match = ms.head? ∧
      ((analyze_piece_response ms).warning =
          some "No confident match found. Please try a different piece or retake the photo." ↔
        ms = []) ∧
      ((analyze_piece_response ms).warning =
          some "Low confidence match. This may not be accurate." ↔
        ∃ b rest, ms = b :: rest ∧ b.confidence < 80) ∧
      ((analyze_piece_response ms).warning = none ↔
        ∃ b rest, ms = b :: rest ∧ 80 ≤ b.confidence) := by
  cases ms with
  | nil =>
    refine ⟨rfl, rfl, by simp [analyze_piece_response], ?_, ?_⟩
    · simp only [analyze_piece_response]
      constructor
      · intro hw
        exact absurd (Option.some.inj hw) (by decide)
      · rintro ⟨b, rest, hcons, -⟩
        exact absurd hcons (by simp)
    · simp only [analyze_piece_response]
      constructor
      · intro hw
        exact absurd hw (by simp)
      · rintro ⟨b, rest, hcons, -⟩
        exact absurd hcons (by simp)
  | cons b rest =>
    by_cases h : b.confidence < 80
    · simp only [analyze_piece_response, if_pos h]
      refine ⟨by trivial, by trivial, ?_, ?_, ?_⟩
      · constructor
        · intro hw
          exact absurd (Option.some.inj hw) (by decide)
        · intro hnil
          exact absurd hnil (by simp)
      · exact ⟨fun _ => ⟨b, rest, rfl, h⟩, fun _ => by trivial⟩
      · constructor
        · intro hw
          exact absurd hw (by simp)
        · rintro ⟨c, cs, hcons, hge⟩
          obtain ⟨rfl, rfl⟩ := List.cons.inj hcons
          linarith
    · simp only [analyze_piece_response, if_neg h]
      refine ⟨by trivial, by trivial, ?_, ?_, ?_⟩
      · constructor
        · intro hw
          exact absurd hw (by simp)
        · intro hnil
          exact absurd hnil (by simp)
      · constructor
        · intro hw
          exact absurd hw (by simp)
        · rintro ⟨c, cs, hcons, hlt⟩
          obtain ⟨rfl, rfl⟩ := List.cons.inj hcons
          linarith
      · exact ⟨fun _ => ⟨b, rest, rfl, not_lt.mp h⟩, fun _ => by trivial⟩

lemma python_range_eq (stop step : ℤ) :
    python_range stop step =
      (List.range (if stop ≤ 0 then 0 else ((stop + step - 1) / step).toNat)).map
        (fun (i : ℕ) => ((i : ℤ)) * step) := by
  unfold python_range
  split <;> simp [*]

lemma flatMap_length_const {α β : Type} (l : List α) (f : α → List β) (n : ℕ)
    (hf : ∀ a ∈ l, (f a).length = n) : (l.flatMap f).length = l.length * n := by
  induction l with
  | nil => simp
  | cons a l ih =>
    have ha := hf a (by simp)
    have ih2 := ih (fun b hb => hf b (by simp [hb]))
    simp only [List.flatMap_cons, List.length_append, ha, ih2, List.length_cons]
    ring

lemma grid_positions_closed_form (w h : ℤ) (hw : 100 ≤ w) (hh : 100 ≤ h) :
    grid_positions w h =
      (List.range (grid_rows h).toNat).flatMap (fun (j : ℕ) =>
        (List.range (grid_cols w).toNat).map
          (fun (i : ℕ) => (((i : ℤ)) * grid_step, ((j : ℤ)) * grid_step))) := by
  have hstep : (0 : ℤ) < grid_step := by norm_num [grid_step, window_size, window_overlap]
  have hrow : ¬(h - window_size + 1 ≤ 0) := by
    simp only [window_size]
    omega
  have hcol : ¬(w - window_size + 1 ≤ 0) := by
    simp only [window_size]
    omega
  have hcount : ∀ z : ℤ, 100 ≤ z →
      ((z - window_size + 1 + grid_step - 1) / grid_step).toNat =
        ((z - window_size).fdiv grid_step + 1).toNat := by
    intro z hz
    have h1 : z - window_size + 1 + grid_step - 1 = (z - window_size) + 1 * grid_step := by ring
    rw [h1, Int.add_mul_ediv_right _ _ (by omega : grid_step ≠ 0),
      Int.fdiv_eq_ediv _ (le_of_lt hstep)]
  unfold grid_positions grid_rows grid_cols
  rw [python_range_eq (h - window_size + 1) grid_step,
    python_range_eq (w - window_size + 1) grid_step, if_neg hrow, if_neg hcol,
    hcount h hh, hcount w hw, List.flatMap_map]
  simp only [List.map_map]
  rfl

lemma grid_positions_length (w h : ℤ) (hw : 100 ≤ w) (hh : 100 ≤ h) :
    (grid_positions w h).length = (grid_rows h).toNat * (grid_cols w).toNat := by
  rw [grid_positions_closed_form w h hw hh,
    flatMap_length_const _ _ (grid_cols w).toNat (fun a _ => by simp), List.length_range]

lemma grid_positions_mem_bounds (w h : ℤ) (hw : 100 ≤ w) (hh : 100 ≤ h) :
    ∀ p ∈ grid_positions w h,
      0 ≤ p.1 ∧ p.1 + window_size ≤ w ∧ 0 ≤ p.2 ∧ p.2 + window_size ≤ h := by
  intro p hp
  rw [grid_positions_closed_form w h hw hh] at hp
  rw [List.mem_flatMap] at hp
  obtain ⟨j, hj, hp⟩ := hp
  rw [List.mem_map] at hp
  obtain ⟨i, hi, rfl⟩ := hp
  dsimp only
  rw [List.mem_range] at hi hj
  have hcol0 : (0 : ℤ) ≤ (w - window_size) / grid_step :=
    Int.ediv_nonneg (by simp only [window_size]; omega)
      (by norm_num [grid_step, window_size, window_overlap])
  have hrow0 : (0 : ℤ) ≤ (h - window_size) / grid_step :=
    Int.ediv_nonneg (by simp only [window_size]; omega)
      (by norm_num [grid_step, window_size, window_overlap])
  have hi2 : (i : ℤ) ≤ (w - window_size) / grid_step := by
    have := hi
    unfold grid_cols at this
    rw [Int.fdiv_eq_ediv _ (by norm_num [grid_step, window_size, window_overlap])] at this
    omega
  have hj2 : (j : ℤ) ≤ (h - window_size) / grid_step := by
    have := hj
    unfold grid_rows at this
    rw [Int.fdiv_eq_ediv _ (by norm_num [grid_step, window_size, window_overlap])] at this
    omega
  have hmw : (w - window_size) / grid_step * grid_step ≤ w - window_size :=
    Int.ediv_mul_le _ (by norm_num [grid_step, window_size, window_overlap])
  have hmh : (h - window_size) / grid_step * grid_step ≤ h - window_size :=
    Int.ediv_mul_le _ (by norm_num [grid_step, window_size, window_overlap])
  have hstep : (0 : ℤ) ≤ grid_step := by norm_num [grid_step, window_size, window_overlap]
  refine ⟨by positivity, ?_, by positivity, ?_⟩
  · have : (i : ℤ) * grid_step ≤ (w - window_size) / grid_step * grid_step :=
      mul_le_mul_of_nonneg_right hi2 hstep
    linarith
  · have : (j : ℤ) * grid_step ≤ (h - window_size) / grid_step * grid_step :=
      mul_le_mul_of_nonneg_right hj2 hstep
    linarith

/-- C7: with the fixed parameters `window_size = 100`, `overlap = 50`, the
grid decomposition walks the image row-major with stride
`window_size - overlap = 50`: position `i` of the generated sequence is
`(stride·(i mod cols), stride·(i div cols))`, as displayed by the closed
form below; every region is exactly `window_size × window_size` and lies
fully inside the image; the region count is `rows · cols` with
`rows = (height - window_size)/stride + 1` and
`cols = (width - window_size)/stride + 1` (integer division); and the
stored `grid_size` is `(rows, cols)`. -/
theorem C7_grid (rf : ℤ → ℤ → Features) (w h : ℤ) (hw : 100 ≤ w) (hh : 100 ≤ h) :
    grid_step = window_size - window_overlap ∧
      grid_positions w h =
        (List.range (grid_rows h).toNat).flatMap (fun (j : ℕ) =>
          (List.range (grid_cols w).toNat).map
            (fun (i : ℕ) => (((i : ℤ)) * grid_step, ((j : ℤ)) * grid_step))) ∧
      (extract_puzzle_features rf w h).regions.length =
        (grid_rows h).toNat * (grid_cols w).toNat ∧
      grid_rows h = (h - window_size) / grid_step + 1 ∧
      grid_cols w = (w - window_size) / grid_step + 1 ∧
      (∀ r ∈ (extract_puzzle_features rf w h).regions,
        r.width = window_size ∧ r.height = window_size ∧
          0 ≤ r.x ∧ r.x + window_size ≤ w ∧ 0 ≤ r.y ∧ r.y + window_size ≤ h) ∧
      (extract_puzzle_features rf w h).grid_size = (grid_rows h, grid_cols w) := by
  refine ⟨rfl, grid_positions_closed_form w h hw hh, ?_, ?_, ?_, ?_, rfl⟩
  · simp only [extract_puzzle_features, List.length_map]
    exact grid_positions_length w h hw hh
  · unfold grid_rows
    rw [Int.fdiv_eq_ediv _ (by norm_num [grid_step, window_size, window_overlap])]
  · unfold grid_cols
    rw [Int.fdiv_eq_ediv _ (by norm_num [grid_step, window_size, window_overlap])]
  · intro r hr
    simp only [extract_puzzle_features, List.mem_map] at hr
    obtain ⟨p, hp, rfl⟩ := hr
    have hb := grid_positions_mem_bounds w h hw hh p hp
    exact ⟨rfl, rfl, hb.1, hb.2.1, hb.2.2.1, hb.2.2.2⟩

/-- Witness for C7: the `300 × 200` instance gives a 3-row, 5-column grid
of 15 regions, the first at `(0,0)` and the last at `(200,100)`. -/
theorem C7_witness :
    (100 : ℤ) ≤ 300 ∧ (100 : ℤ) ≤ 200 ∧
      grid_rows 200 = 3 ∧ grid_cols 300 = 5 ∧
      (grid_positions 300 200).length = 15 ∧
      (grid_positions 300 200).head? = some (0, 0) ∧
      (grid_positions 300 200).getLast? = some (200, 100) ∧
      (extract_puzzle_features (fun _ _ => wFeat) 300 200).regions.length =
        (grid_rows 200).toNat * (grid_cols 300).toNat := by
  refine ⟨by norm_num, by norm_num, by decide, by decide, by decide, by decide, by decide, ?_⟩
  exact (C7_grid (fun _ _ => wFeat) 300 200 (by norm_num) (by norm_num)).2.2.1

lemma processRegion_w2 (rot : ℕ) : processRegion wFeat wMeta rot w2Region = none := by
  unfold processRegion
  rw [show compare_color_histograms wFeat.color_hist w2Region.color_hist = 0 from
    compare_color_unit_opp, if_pos (by norm_num)]

/-- Store fixture whose feature load fails while the metadata exists. -/
def w8Store : Store := ⟨fun _ => none, fun _ => some wMeta⟩

/-- Store fixture installing a single region that the piece fixture's color
stage rejects: a run with zero surviving candidates. -/
def w0PF : PuzzleFeatures := ⟨[w2Region], (1, 1)⟩

/-- Store fixture for the zero-candidate run. -/
def w0Store : Store := ⟨fun _ => some w0PF, fun _ => some wMeta⟩

/-- Store fixture where the puzzle does not exist at all. -/
def w404Store : Store := ⟨fun _ => none, fun _ => none⟩

/-- Counterexample for C8: with the descriptor set missing (but the puzzle
metadata present), `find_matches` returns the empty list — exactly the
value that a successful zero-candidate run returns — rather than a
distinguishable NotFound signal. -/
theorem C8_counterexample :
    w8Store.load_puzzle_features "p" = none ∧
      find_matches w8Store (some (fun _ => wFeat)) "p" 5 = [] ∧
      find_matches w0Store (some (fun _ => wFeat)) "p" 5 = [] := by
  refine ⟨rfl, by simp only [find_matches, w8Store], ?_⟩
  simp only [find_matches, w0Store, w0PF, extract_piece_features_all_orientations,
    List.map_cons, List.map_nil, match_piece_to_puzzle, List.filterMap_cons, processRegion_w2,
    List.filterMap_nil, List.flatten, List.append_nil, List.mergeSort_nil, List.take_nil]

/-- C8 (amended): a missing descriptor set makes `find_matches` return the
empty list, the same value as a zero-candidate success, so the engine
itself emits no NotFound signal; an explicit 404 "Puzzle not found" error
is produced only by the route's earlier metadata check, before matching
starts. -/
theorem C8_not_found (store : Store) (piece : Option (ℕ → Features)) (pid : String) (k : ℕ)
    (hmiss : store.load_puzzle_features pid = none) :
    find_matches store piece pid k = [] ∧
      (∀ store2 : Store, store2.get_puzzle pid = none →
        analyze_piece store2 piece pid = ApiResult.err "Puzzle not found" 404) := by
  constructor
  · simp only [find_matches, hmiss]
  · intro store2 h2
    simp only [analyze_piece, h2]

/-- Witness for C8 (amended): the missing-features store yields `[]`, and
the store without the puzzle yields the 404 error. -/
theorem C8_witness :
    w8Store.load_puzzle_features "p" = none ∧
      find_matches w8Store (some (fun _ => wFeat)) "p" 5 = [] ∧
      analyze_piece w404Store (some (fun _ => wFeat)) "p" =
        ApiResult.err "Puzzle not found" 404 := by
  have h := C8_not_found w8Store (some (fun _ => wFeat)) "p" 5 rfl
  exact ⟨rfl, h.1, h.2 w404Store rfl⟩

/-- Shape feature fixture with an absent edge histogram and a degenerate
(all-zero) Hu vector. -/
def w9Shape : ShapeFeatures := ⟨none, some [0, 0, 0, 0, 0, 0, 0]⟩

/-- Counterexample for C9: on two records whose Hu vectors are the
degenerate all-zero vector, the Hu sub-similarity is
`exp(-‖0 - 0‖) = 1`, not the neutral prior 0.5, so the shape similarity is
`(0.5 + 1)/2 = 0.75` where the claim predicts `(0.5 + 0.5)/2 = 0.5`. -/
theorem C9_counterexample :
    compare_shape_features w9Shape w9Shape = 3 / 4 ∧ (3 / 4 : ℝ) ≠ (0.5 + 0.5) / 2 := by
  constructor
  · simp only [compare_shape_features, w9Shape, optLenMismatch]
    norm_num [norm2_zero7, Real.exp_zero, clamp01]
  · norm_num

/-- C9 (amended): an absent (`None`) sub-vector contributes the neutral
prior 0.5 — in particular two records with both sub-vectors absent
compare to exactly 0.5 — while a present sub-vector, degenerate all-zero
or not, is processed by the regular formula (correlation for edge
histograms, `exp(-distance)` for Hu moments, which gives 1, not 0.5, for
two zero Hu vectors); the result is `clamp01((edge + hu)/2)` and the
comparison never fails: it always lands in `[0, 1]`. -/
theorem C9_shape_neutral :
    (∀ s1 s2 : ShapeFeatures,
      (s1.edge_hist = none ∨ s2.edge_hist = none) →
      (s1.hu_moments = none ∨ s2.hu_moments = none) →
      compare_shape_features s1 s2 = 1 / 2) ∧
      (∀ a b : List ℝ, a.length = b.length →
        compare_shape_features ⟨none, some a⟩ ⟨none, some b⟩ =
          clamp01 ((1 / 2 + Real.exp (-(norm2 (List.zipWith (fun x y => x - y) a b)))) / 2)) ∧
      (∀ e1 e2 : List ℝ, e1.length = e2.length →
        compare_shape_features ⟨some e1, none⟩ ⟨some e2, none⟩ =
          clamp01 (((pearson e1 e2 + 1) / 2 + 1 / 2) / 2)) ∧
      (∀ s1 s2 : ShapeFeatures,
        0 ≤ compare_shape_features s1 s2 ∧ compare_shape_features s1 s2 ≤ 1) := by
  refine ⟨?_, ?_, ?_, compare_shape_features_mem_Icc⟩
  · intro s1 s2 he hhu
    obtain ⟨e1, u1⟩ := s1
    obtain ⟨e2, u2⟩ := s2
    simp only at he hhu
    rcases e1 with _ | e1 <;> rcases e2 with _ | e2 <;> rcases u1 with _ | u1 <;>
        rcases u2 with _ | u2 <;>
      simp_all [compare_shape_features, optLenMismatch, clamp01] <;> norm_num
  · intro a b hlen
    simp [compare_shape_features, optLenMismatch, hlen]
  · intro e1 e2 hlen
    simp [compare_shape_features, optLenMismatch, hlen]

/-- Witness for C9 (amended): at the all-zero Hu fixtures (equal lengths)
the regular-formula branch applies, and it evaluates to 3/4. -/
theorem C9_witness :
    compare_shape_features ⟨none, some [0, 0, 0, 0, 0, 0, 0]⟩ ⟨none, some [0, 0, 0, 0, 0, 0, 0]⟩ =
        clamp01 ((1 / 2 + Real.exp (-(norm2 (List.zipWith (fun x y => x - y)
          [(0 : ℝ), 0, 0, 0, 0, 0, 0] [0, 0, 0, 0, 0, 0, 0])))) / 2) ∧
      clamp01 ((1 / 2 + Real.exp (-(norm2 (List.zipWith (fun x y => x - y)
          [(0 : ℝ), 0, 0, 0, 0, 0, 0] [0, 0, 0, 0, 0, 0, 0])))) / 2) = 3 / 4 := by
  constructor
  · exact C9_shape_neutral.2.1 [0, 0, 0, 0, 0, 0, 0] [0, 0, 0, 0, 0, 0, 0] rfl
  · norm_num [norm2_zero7, Real.exp_zero, clamp01]

/-- C10: `find_matches` is total — every internal failure mode is caught
and collapses to the empty list, the very value a genuine zero-candidate
run produces, so the two outcomes are indistinguishable to the caller.
The conjuncts cover, in order: piece feature extraction failing (the
`except` branch of `_extract_piece_features_all_orientations`), the
feature load returning `None`, the metadata load returning `None`, a run
in which every (rotation, region) pair is rejected, and a piece whose
color histogram makes `cv2.compareHist` fail against every region (the
caught comparison error yields score `0.0`, below the prefilter). -/
theorem C10_totality :
    (∀ (store : Store) (pid : String) (k : ℕ), find_matches store none pid k = []) ∧
      (∀ (store : Store) (piece : Option (ℕ → Features)) (pid : String) (k : ℕ),
        store.load_puzzle_features pid = none → find_matches store piece pid k = []) ∧
      (∀ (store : Store) (piece : Option (ℕ → Features)) (pid : String) (k : ℕ),
        store.get_puzzle pid = none → find_matches store piece pid k = []) ∧
      (∀ (store : Store) (f : ℕ → Features) (pid : String) (k : ℕ)
        (pf : PuzzleFeatures) (md : PuzzleMetadata),
        store.load_puzzle_features pid = some pf → store.get_puzzle pid = some md →
        (∀ rot r, r ∈ pf.regions → processRegion (f rot) md rot r = none) →
        find_matches store (some f) pid k = []) ∧
      (∀ (store : Store) (f : ℕ → Features) (pid : String) (k : ℕ)
        (pf : PuzzleFeatures) (md : PuzzleMetadata),
        store.load_puzzle_features pid = some pf → store.get_puzzle pid = some md →
        (∀ rot r, r ∈ pf.regions → (f rot).color_hist.length ≠ r.color_hist.length) →
        find_matches store (some f) pid k = []) := by
  have hreject : ∀ (f : ℕ → Features) (pf : PuzzleFeatures) (md : PuzzleMetadata)
      (store : Store) (pid : String) (k : ℕ),
      store.load_puzzle_features pid = some pf → store.get_puzzle pid = some md →
      (∀ rot r, r ∈ pf.regions → processRegion (f rot) md rot r = none) →
      find_matches store (some f) pid k = [] := by
    intro f pf md store pid k hpf hmd hnone
    simp only [find_matches, hpf, hmd, extract_piece_features_all_orientations,
      List.map_cons, List.map_nil, match_piece_to_puzzle]
    have hempty : ∀ rot : ℕ, pf.regions.filterMap (processRegion (f rot) md rot) = [] := by
      intro rot
      rw [List.filterMap_eq_nil_iff]
      exact fun r hr => hnone rot r hr
    simp [hempty]
  refine ⟨?_, ?_, ?_, fun store f pid k pf md h1 h2 h3 => hreject f pf md store pid k h1 h2 h3, ?_⟩
  · intro store pid k
    rcases hpf : store.load_puzzle_features pid with _ | pf
    · simp only [find_matches, hpf]
    · rcases hmd : store.get_puzzle pid with _ | md
      · simp only [find_matches, hpf, hmd]
      · simp [find_matches, hpf, hmd, extract_piece_features_all_orientations]
  · intro store piece pid k hmiss
    simp only [find_matches, hmiss]
  · intro store piece pid k hmiss
    rcases hpf : store.load_puzzle_features pid with _ | pf
    · simp only [find_matches, hpf]
    · simp only [find_matches, hpf, hmiss]
  · intro store f pid k pf md hpf hmd hlen
    refine hreject f pf md store pid k hpf hmd ?_
    intro rot r hr
    unfold processRegion
    rw [show compare_color_histograms (f rot).color_hist r.color_hist = 0 from by
      unfold compare_color_histograms
      rw [if_neg (hlen rot r hr)], if_pos (by norm_num)]

/-- Witness for C10: the three concrete failure runs (extraction failed,
features missing, all candidates rejected) all return the same empty
list. -/
theorem C10_witness :
    find_matches wStore none "p" 5 = [] ∧
      find_matches w8Store (some (fun _ => wFeat)) "p" 5 = [] ∧
      find_matches w0Store (some (fun _ => wFeat)) "p" 5 = [] := by
  refine ⟨C10_totality.1 wStore "p" 5,
    C10_totality.2.1 w8Store (some (fun _ => wFeat)) "p" 5 rfl, ?_⟩
  refine C10_totality.2.2.2.1 w0Store (fun _ => wFeat) "p" 5 w0PF wMeta rfl rfl ?_
  intro rot r hr
  simp only [w0PF, List.mem_singleton] at hr
  subst hr
  exact processRegion_w2 rot
